import Mathlib

/-!
Verification of the `storyblok-translate-slugs` CLI tool
(`src/bin/storyblok-translate-slugs.mjs`).

The script is a one-shot batch job: it resolves configuration from CLI
flags and environment variables, fetches the stories of a Storyblok
space, and for each story and target locale translates the story's slug
and name via the DeepL API, appending the results to the story's
`translated_slugs_attributes` list before writing the story back.

This file gives a shallow embedding of that pipeline.  External API
interactions are modelled by an oracle (for the translation API) and by
explicit input lists (for the management API); every outward call the
script makes is recorded as an `Event` so that temporal properties
("no write before X") become statements about event traces.
-/

/-- JavaScript truthiness of a possibly-absent string value
(`undefined` and the empty string are falsy). -/
def truthy : Option String → Bool
  | none => false
  | some s => !s.isEmpty

/-- JavaScript `a || b` on possibly-absent string values. -/
def jsOr (a b : Option String) : Option String :=
  if truthy a then a else b

/-- ASCII lowercasing of a character.
Modelled from the spec: part of the slugification rules of the external
`@sindresorhus/slugify` dependency, described as "lowercasing". -/
def lowerChar (c : Char) : Char :=
  if 65 ≤ c.toNat ∧ c.toNat ≤ 90 then Char.ofNat (c.toNat + 32) else c

/-- Diacritic stripping of a character (common Latin-1 accents).
Modelled from the spec: part of the slugification rules of the external
`@sindresorhus/slugify` dependency, described as "diacritic stripping". -/
def deaccent (c : Char) : Char :=
  if c = 'à' ∨ c = 'á' ∨ c = 'â' ∨ c = 'ä' then 'a'
  else if c = 'è' ∨ c = 'é' ∨ c = 'ê' ∨ c = 'ë' then 'e'
  else if c = 'ì' ∨ c = 'í' ∨ c = 'î' ∨ c = 'ï' then 'i'
  else if c = 'ò' ∨ c = 'ó' ∨ c = 'ô' ∨ c = 'ö' then 'o'
  else if c = 'ù' ∨ c = 'ú' ∨ c = 'û' ∨ c = 'ü' then 'u'
  else if c = 'ç' then 'c'
  else if c = 'ñ' then 'n'
  else c

/-- Whether a character is whitespace (to be turned into a hyphen).
Modelled from the spec: part of the slugification rules, described as
"whitespace-to-hyphen". -/
def isSpace (c : Char) : Bool :=
  c = ' ' || c = '\t' || c = '\n' || c = '\r'

/-- Whether a character is allowed in a slug: lowercase ASCII letter
(code 97-122), digit (code 48-57) or hyphen (code 45).
Modelled from the spec: part of the slugification rules, described as
"stripping of disallowed characters". -/
def isSlugChar (c : Char) : Bool :=
  (97 ≤ c.toNat && c.toNat ≤ 122) || (48 ≤ c.toNat && c.toNat ≤ 57) || c.toNat = 45

/-- Per-character slugification step: whitespace becomes a hyphen;
otherwise the character is lowercased and deaccented and kept only if it
is an allowed slug character. -/
def slugChar (c : Char) : Option Char :=
  if isSpace c then some '-'
  else if isSlugChar (deaccent (lowerChar c)) then some (deaccent (lowerChar c))
  else none

/-- Slugification of a string.
Modelled from the spec: the external `@sindresorhus/slugify` dependency
(imported at line 3 of the script, no source in this repository), whose
rules the spec describes as "lowercasing, diacritic stripping,
whitespace-to-hyphen, stripping of disallowed characters". -/
def slugify (s : String) : String :=
  String.mk (s.data.filterMap slugChar)

/-- One entry of a story's `localized_paths` list: an existing per-locale
translation carrying, among others, the locale and a published flag. -/
structure LocalizedPath where
  lang : String
  published : Bool
deriving DecidableEq, Repr

/-- One entry of a story's `translated_slugs_attributes` list, as pushed
at lines 236-240 of the script. -/
structure SlugEntry where
  lang : String
  slug : String
  name : String
deriving DecidableEq, Repr

/-- A story record as fetched from the management API.  `localized_paths`
and `translated_slugs_attributes` are optional: the script checks for the
presence of those keys with the JavaScript `in` operator. -/
structure Story where
  id : Nat
  is_folder : Bool
  content_type : String
  full_slug : String
  slug : String
  name : String
  localized_paths : Option (List LocalizedPath)
  translated_slugs_attributes : Option (List SlugEntry)
deriving DecidableEq, Repr

/-- The effective run configuration, after CLI/environment resolution
(lines 97-115 of the script). -/
structure Config where
  sourceLang : Option String
  contentTypes : List String
  skipStories : List String
  onlyStories : List String
  overwrite : Bool
  publish : Bool
  dryRun : Bool
  verbose : Bool
deriving DecidableEq, Repr

/-- The result of one DeepL `translateText` call. -/
structure TranslationResult where
  text : String
  billedCharacters : Nat
  detectedSourceLang : String
deriving DecidableEq, Repr

/-- The translation API, modelled as a pure oracle: source text, optional
source language, target language. -/
def Oracle := String → Option String → String → TranslationResult

/-- The process-wide mutable counters of the script
(`detectedSourceLang` at line 127, `totalBilledCharacters` at line 128). -/
structure RunState where
  detectedSourceLang : Option String
  totalBilledCharacters : Nat
deriving DecidableEq, Repr

/-- Initial run state: no detected source language, zero billed characters. -/
def initialRunState : RunState := ⟨none, 0⟩

/-- External calls issued by the script, in order.  `getSpace`,
`getStoryList`, `getStory` and `putStory` are management-API calls;
`translateCall` is a DeepL call. -/
inductive Event where
  | getSpace : Event
  | getStoryList : Event
  | getStory : Nat → Event
  | translateCall : String → String → Nat → Event
  | putStory : Nat → Story → Bool → Event
deriving DecidableEq, Repr

/-- Whether an event is a story write (PUT). -/
def eventIsPut : Event → Bool
  | Event.putStory _ _ _ => true
  | _ => false

/-- The billed characters of an event (zero for non-translate events). -/
def eventBilled : Event → Nat
  | Event.translateCall _ _ b => b
  | _ => 0

/-- Sum of the billed characters over a trace of events. -/
def sumBilled (evs : List Event) : Nat :=
  (evs.map eventBilled).sum

/-- The fatal message printed at lines 139-141 of the script when the
auto-detected source language is inconsistent. -/
def mismatchMsg (detected previous : String) : String :=
  "Error: Detected source language (" ++ detected ++
    ") is different from previously detected languages (" ++ previous ++
    "). You might want to state a fixed source language using the --source-lang parameter."

/-- The fatal message printed at lines 205-207 of the script when a story
has no `localized_paths` key. -/
def localizedPathsMsg (fullSlug : String) : String :=
  "Error: \"localized_paths\" key not found in story \"" ++ fullSlug ++
    "\". Do you have the \"Translatable Slug\" app installed?"

/-- The `translate` helper of the script (lines 129-147): calls the
oracle, accumulates the billed characters, and — when no explicit source
language is configured — checks that the auto-detected source language is
consistent with the previously detected one, failing fatally otherwise.
Returns the new state, the emitted event, and either the translated text
or the fatal error message. -/
def translateText (o : Oracle) (sourceLang : Option String) (st : RunState)
    (text targetLang : String) : RunState × Event × Except String String :=
  let r := o text sourceLang targetLang
  let st1 : RunState :=
    { st with totalBilledCharacters := st.totalBilledCharacters + r.billedCharacters }
  let ev := Event.translateCall text targetLang r.billedCharacters
  match sourceLang with
  | some _ => (st1, ev, Except.ok r.text)
  | none =>
    if truthy st.detectedSourceLang then
      if r.detectedSourceLang = st.detectedSourceLang.getD "" then
        (st1, ev, Except.ok r.text)
      else
        (st1, ev, Except.error (mismatchMsg r.detectedSourceLang (st.detectedSourceLang.getD "")))
    else
      ({ st1 with detectedSourceLang := some r.detectedSourceLang }, ev, Except.ok r.text)

/-- The result of processing one locale (or the locale loop) of a story. -/
structure LocaleResult where
  state : RunState
  story : Story
  events : List Event
  err : Option String
deriving DecidableEq, Repr

/-- The body of the inner locale loop (lines 201-241 of the script):
fail fatally if the story has no `localized_paths` key; skip if a
published translation for this locale exists and overwrite is not set;
otherwise translate the slug, re-slugify it, translate the name, and
append a `SlugEntry` to the story's `translated_slugs_attributes`
(creating that list if absent). -/
def processLocale (o : Oracle) (cfg : Config) (st : RunState) (story : Story)
    (locale : String) : LocaleResult :=
  match story.localized_paths with
  | none => ⟨st, story, [], some (localizedPathsMsg story.full_slug)⟩
  | some lps =>
    let existingTranslation := lps.find? (fun item => item.lang == locale)
    if ((existingTranslation.map (fun item => item.published)).getD false
        && !cfg.overwrite) then
      ⟨st, story, [], none⟩
    else
      match translateText o cfg.sourceLang st story.slug locale with
      | (st1, ev1, Except.error m) => ⟨st1, story, [ev1], some m⟩
      | (st1, ev1, Except.ok slugText) =>
        let translatedSlug := slugify slugText
        match translateText o cfg.sourceLang st1 story.name locale with
        | (st2, ev2, Except.error m) => ⟨st2, story, [ev1, ev2], some m⟩
        | (st2, ev2, Except.ok translatedName) =>
          let story1 : Story :=
            { story with
              translated_slugs_attributes :=
                some (story.translated_slugs_attributes.getD [] ++
                  [⟨locale, translatedSlug, translatedName⟩]) }
          ⟨st2, story1, [ev1, ev2], none⟩

/-- The inner locale loop over the list of locales (lines 201-241),
stopping at the first fatal error (the script calls `process.exit`). -/
def processLocales (o : Oracle) (cfg : Config) (st : RunState) (story : Story) :
    List String → LocaleResult
  | [] => ⟨st, story, [], none⟩
  | l :: ls =>
    let r1 := processLocale o cfg st story l
    match r1.err with
    | some m => ⟨r1.state, r1.story, r1.events, some m⟩
    | none =>
      let r2 := processLocales o cfg r1.state r1.story ls
      ⟨r2.state, r2.story, r1.events ++ r2.events, r2.err⟩

/-- The result of processing one story (or the story loop). -/
structure StoriesResult where
  state : RunState
  events : List Event
  err : Option String
deriving DecidableEq, Repr

/-- The body of the outer story loop (lines 192-269): run the locale
loop, then skip the write when the story has no
`translated_slugs_attributes` key, skip it in dry-run mode, and issue the
PUT otherwise. -/
def processStory (o : Oracle) (cfg : Config) (locales : List String)
    (st : RunState) (story : Story) : StoriesResult :=
  let r := processLocales o cfg st story locales
  match r.err with
  | some m => ⟨r.state, r.events, some m⟩
  | none =>
    match r.story.translated_slugs_attributes with
    | none => ⟨r.state, r.events, none⟩
    | some _ =>
      if cfg.dryRun then ⟨r.state, r.events, none⟩
      else ⟨r.state, r.events ++ [Event.putStory r.story.id r.story cfg.publish], none⟩

/-- The outer story loop (lines 192-269), stopping at the first fatal
error. -/
def processStories (o : Oracle) (cfg : Config) (locales : List String)
    (st : RunState) : List Story → StoriesResult
  | [] => ⟨st, [], none⟩
  | s :: ss =>
    let r1 := processStory o cfg locales st s
    match r1.err with
    | some m => ⟨r1.state, r1.events, some m⟩
    | none =>
      let r2 := processStories o cfg locales r1.state ss
      ⟨r2.state, r1.events ++ r2.events, r2.err⟩

/-- The story filter of the fetch loop (lines 178-188 of the script):
not a folder, content type in the configured list, full slug not in the
skip-list, and in the only-list when that list is non-empty. -/
def storySelected (cfg : Config) (story : Story) : Bool :=
  !story.is_folder &&
    cfg.contentTypes.contains story.content_type &&
    !(cfg.skipStories.contains story.full_slug) &&
    (if cfg.onlyStories.length > 0 then cfg.onlyStories.contains story.full_slug
     else true)

/-- Selection of the stories to process from the space's story list. -/
def selectStories (cfg : Config) (storyList : List Story) : List Story :=
  storyList.filter (storySelected cfg)

/-- The parsed CLI arguments (minimist result).  A `none` field means the
flag was absent; `some v` means the flag was supplied with value `v`.
Boolean flags are presence flags. -/
structure Args where
  token : Option String := none
  space : Option String := none
  region : Option String := none
  deeplApiKey : Option String := none
  sourceLang : Option String := none
  contentTypes : Option String := none
  locales : Option String := none
  skipStories : Option String := none
  onlyStories : Option String := none
  overwrite : Bool := false
  publish : Bool := false
  dryRun : Bool := false
  verbose : Bool := false
  help : Bool := false
deriving DecidableEq, Repr

/-- The environment variables read by the script.  A `none` field means
the variable is unset. -/
structure Env where
  storyblokOauthToken : Option String := none
  storyblokSpaceId : Option String := none
  storyblokRegion : Option String := none
  deeplApiKey : Option String := none
deriving DecidableEq, Repr

/-- The usage-error message for a missing OAuth token (lines 72-74). -/
def tokenMsg : String :=
  "Error: State your oauth token via the --token argument or the environment variable STORYBLOK_OAUTH_TOKEN. Use --help to find out more."

/-- The usage-error message for a missing space id (lines 80-82). -/
def spaceMsg : String :=
  "Error: State your space id via the --space argument or the environment variable STORYBLOK_SPACE_ID. Use --help to find out more."

/-- The usage-error message for an invalid region (line 92). -/
def regionMsg : String :=
  "Error: Invalid region parameter stated. Use --help to find out more."

/-- The usage-error message for a missing DeepL API key (lines 100-102). -/
def deeplMsg : String :=
  "Error: State your DeepL API key via the --deepl-api-key argument or the environment variable DEEPL_API_KEY. Use --help to find out more."

/-- OAuth-token resolution (lines 71-77 of the script): fail when the
flag is absent and the environment variable is falsy, otherwise resolve
via JavaScript `args.token || process.env.STORYBLOK_OAUTH_TOKEN`. -/
def resolveOauthToken (a : Args) (e : Env) : Except String (Option String) :=
  if !a.token.isSome && !truthy e.storyblokOauthToken then Except.error tokenMsg
  else Except.ok (jsOr a.token e.storyblokOauthToken)

/-- Space-id resolution (lines 79-85 of the script). -/
def resolveSpaceId (a : Args) (e : Env) : Except String (Option String) :=
  if !a.space.isSome && !truthy e.storyblokSpaceId then Except.error spaceMsg
  else Except.ok (jsOr a.space e.storyblokSpaceId)

/-- Region resolution (lines 87-95 of the script): defaults to `eu`; when
the flag is present or the environment variable is truthy, the resolved
value must be in the allow-list. -/
def resolveRegion (a : Args) (e : Env) : Except String String :=
  if a.region.isSome || truthy e.storyblokRegion then
    match jsOr a.region e.storyblokRegion with
    | some r =>
      if ["eu", "us", "ap", "ca", "cn"].contains r then Except.ok r
      else Except.error regionMsg
    | none => Except.error regionMsg
  else Except.ok "eu"

/-- Validity check of a region value, used to state what `resolveRegion`
does with whichever of the two sources it picked. -/
def regionCheck (v : Option String) : Except String String :=
  match v with
  | some r =>
    if ["eu", "us", "ap", "ca", "cn"].contains r then Except.ok r
    else Except.error regionMsg
  | none => Except.error regionMsg

/-- DeepL-API-key resolution (lines 99-105 of the script). -/
def resolveDeeplApiKey (a : Args) (e : Env) : Except String (Option String) :=
  if !a.deeplApiKey.isSome && !truthy e.deeplApiKey then Except.error deeplMsg
  else Except.ok (jsOr a.deeplApiKey e.deeplApiKey)

/-- Content-type list resolution (line 109 of the script): the split
comma list when the flag value is truthy, `["page"]` otherwise. -/
def resolveContentTypes (a : Args) : List String :=
  if truthy a.contentTypes then (a.contentTypes.getD "").splitOn "," else ["page"]

/-- Resolution of the remaining options into the effective configuration
(lines 107-115 of the script). -/
def buildConfig (a : Args) : Config where
  sourceLang := if truthy a.sourceLang then a.sourceLang else none
  contentTypes := resolveContentTypes a
  skipStories := if truthy a.skipStories then (a.skipStories.getD "").splitOn "," else []
  onlyStories := if truthy a.onlyStories then (a.onlyStories.getD "").splitOn "," else []
  overwrite := a.overwrite
  publish := a.publish
  dryRun := a.dryRun
  verbose := a.verbose

/-- The observable outcome of a whole run: the trace of external calls,
the process exit code, the fatal message (if any) and the final
billed-character counter. -/
structure ProgOutput where
  events : List Event
  exitCode : Nat
  errMsg : Option String
  billedTotal : Nat
deriving DecidableEq, Repr

/-- The whole script (lines 14-276): help short-circuit, configuration
resolution with usage errors, locale resolution (fetching the space's
languages when no locales are stated), story fetch with filtering, the
story loop, and the final exit.  `spaceLangs` models the language codes
configured on the space and `storyList` the story list returned by the
management API. -/
def runProgram (a : Args) (e : Env) (o : Oracle) (spaceLangs : List String)
    (storyList : List Story) : ProgOutput :=
  if a.help then ⟨[], 0, none, 0⟩
  else
    match resolveOauthToken a e with
    | Except.error m => ⟨[], 1, some m, 0⟩
    | Except.ok _ =>
      match resolveSpaceId a e with
      | Except.error m => ⟨[], 1, some m, 0⟩
      | Except.ok _ =>
        match resolveRegion a e with
        | Except.error m => ⟨[], 1, some m, 0⟩
        | Except.ok _ =>
          match resolveDeeplApiKey a e with
          | Except.error m => ⟨[], 1, some m, 0⟩
          | Except.ok _ =>
            let cfg := buildConfig a
            let statedLocales :=
              if truthy a.locales then (a.locales.getD "").splitOn "," else []
            let fetchSpace := statedLocales.isEmpty
            let locales := if fetchSpace then spaceLangs else statedLocales
            let spaceEvents := if fetchSpace then [Event.getSpace] else []
            let selected := selectStories cfg storyList
            let fetchEvents :=
              Event.getStoryList :: selected.map (fun s => Event.getStory s.id)
            let pr := processStories o cfg locales initialRunState selected
            match pr.err with
            | some m =>
              ⟨spaceEvents ++ fetchEvents ++ pr.events, 1, some m,
                pr.state.totalBilledCharacters⟩
            | none =>
              ⟨spaceEvents ++ fetchEvents ++ pr.events, 0, none,
                pr.state.totalBilledCharacters⟩

/-- The skip condition of the locale loop (line 213 of the script): an
existing translation for this locale is found, it is published, and the
overwrite option is not set. -/
def skippedCombo (cfg : Config) (story : Story) (locale : String) : Bool :=
  match story.localized_paths with
  | none => false
  | some lps =>
    ((lps.find? (fun item => item.lang == locale)).map
      (fun item => item.published)).getD false && !cfg.overwrite

/-- The story after appending a list of translated-slug entries: the
story unchanged when nothing was added, otherwise only the
`translated_slugs_attributes` field changes, extending the previous list
(created if absent). -/
def tsaUpdate (story : Story) (added : List SlugEntry) : Story :=
  if added.isEmpty then story
  else
    { story with
      translated_slugs_attributes :=
        some (story.translated_slugs_attributes.getD [] ++ added) }

/-- A concrete translation oracle for witnesses and counterexamples:
the text "maison" is detected as French, every other text as English. -/
def oracleCX : Oracle := fun text _src _tgt =>
  if text = "maison" then ⟨"haus", 6, "fr"⟩
  else ⟨"t-" ++ text, 4, "en"⟩

/-- A concrete configuration: auto-detected source language, default
content types, no filters, no overwrite, no publish, live (non-dry) run. -/
def cfgCX : Config := ⟨none, ["page"], [], [], false, false, false, false⟩

/-- A concrete story with no existing translations. -/
def storyCX1 : Story := ⟨1, false, "page", "home", "home", "Home", some [], none⟩

/-- A concrete story whose slug is detected as French by `oracleCX`. -/
def storyCX2 : Story := ⟨2, false, "page", "maison", "maison", "Maison", some [], none⟩

/-- A concrete story with an existing published German translation. -/
def storyC5 : Story := ⟨7, false, "page", "w", "w", "W", some [⟨"de", true⟩], none⟩

/-- A concrete argument record for witnesses: required credentials plus
an explicit locale list. -/
def argsW : Args :=
  { token := some "t"
    space := some "12345"
    deeplApiKey := some "k"
    locales := some "de" }

/-- A concrete environment record with no variables set. -/
def envW : Env := { }

/-- The story written back for `storyCX1` in a live run over locale "de":
identical to the fetched story except for the created
translated-slugs list. -/
def storyCX1w : Story :=
  ⟨1, false, "page", "home", "home", "Home", some [],
    some [⟨"de", "t-home", "t-Home"⟩]⟩

theorem deaccent_fix (d : Char) (h : d.toNat ≤ 122) : deaccent d = d := by
  have n1 : ¬(d = 'à' ∨ d = 'á' ∨ d = 'â' ∨ d = 'ä') := by
    rintro (rfl | rfl | rfl | rfl) <;> exact absurd h (by decide)
  have n2 : ¬(d = 'è' ∨ d = 'é' ∨ d = 'ê' ∨ d = 'ë') := by
    rintro (rfl | rfl | rfl | rfl) <;> exact absurd h (by decide)
  have n3 : ¬(d = 'ì' ∨ d = 'í' ∨ d = 'î' ∨ d = 'ï') := by
    rintro (rfl | rfl | rfl | rfl) <;> exact absurd h (by decide)
  have n4 : ¬(d = 'ò' ∨ d = 'ó' ∨ d = 'ô' ∨ d = 'ö') := by
    rintro (rfl | rfl | rfl | rfl) <;> exact absurd h (by decide)
  have n5 : ¬(d = 'ù' ∨ d = 'ú' ∨ d = 'û' ∨ d = 'ü') := by
    rintro (rfl | rfl | rfl | rfl) <;> exact absurd h (by decide)
  have n6 : ¬(d = 'ç') := by rintro rfl; exact absurd h (by decide)
  have n7 : ¬(d = 'ñ') := by rintro rfl; exact absurd h (by decide)
  simp only [deaccent, if_neg n1, if_neg n2, if_neg n3, if_neg n4, if_neg n5,
    if_neg n6, if_neg n7]

theorem slugChar_fix (d : Char) (h : isSlugChar d = true) : slugChar d = some d := by
  have hd : (97 ≤ d.toNat ∧ d.toNat ≤ 122) ∨ (48 ≤ d.toNat ∧ d.toNat ≤ 57) ∨
      d.toNat = 45 := by
    simpa [isSlugChar, or_assoc] using h
  have h122 : d.toNat ≤ 122 := by omega
  have hsp : isSpace d = false := by
    simp only [isSpace, Bool.or_eq_false_iff, decide_eq_false_iff_not]
    refine ⟨⟨⟨?_, ?_⟩, ?_⟩, ?_⟩ <;> (rintro rfl; exact absurd hd (by decide))
  have hlow : lowerChar d = d := by
    simp only [lowerChar]
    rw [if_neg]
    omega
  simp only [slugChar, hsp, Bool.false_eq_true, if_false, hlow,
    deaccent_fix d h122, h, if_true]

theorem slugChar_idem (c c' : Char) (h : slugChar c = some c') :
    slugChar c' = some c' := by
  by_cases hs : isSpace c
  · simp only [slugChar, hs, if_true, Option.some.injEq] at h
    subst h
    decide
  · simp only [slugChar, hs, Bool.false_eq_true, if_false] at h
    by_cases hguard : isSlugChar (deaccent (lowerChar c)) = true
    · rw [if_pos hguard] at h
      obtain rfl : deaccent (lowerChar c) = c' := Option.some.inj h
      exact slugChar_fix _ hguard
    · rw [if_neg hguard] at h
      exact absurd h (by simp)

/-- Claim C9: the slugification function applied to translated slug text
is idempotent: for every string s, slugify (slugify s) = slugify s, so
re-slugifying an already-slugified string returns it unchanged. -/
theorem slugify_idempotent (s : String) : slugify (slugify s) = slugify s := by
  have key : ∀ l : List Char,
      (l.filterMap slugChar).filterMap slugChar = l.filterMap slugChar := by
    intro l
    induction l with
    | nil => rfl
    | cons c cs ih =>
      cases hc : slugChar c with
      | none => simp [List.filterMap_cons, hc, ih]
      | some c' => simp [List.filterMap_cons, hc, slugChar_idem c c' hc, ih]
  simp [slugify, key]

theorem translateText_event (o : Oracle) (sl : Option String) (st : RunState)
    (text tgt : String) :
    (translateText o sl st text tgt).2.1 =
      Event.translateCall text tgt ((o text sl tgt).billedCharacters) := by
  unfold translateText
  cases sl with
  | some s => rfl
  | none =>
    simp only []
    split
    · split <;> rfl
    · rfl

theorem translateText_billed (o : Oracle) (sl : Option String) (st : RunState)
    (text tgt : String) :
    (translateText o sl st text tgt).1.totalBilledCharacters =
      st.totalBilledCharacters + ((o text sl tgt).billedCharacters) := by
  unfold translateText
  cases sl with
  | some s => rfl
  | none =>
    simp only []
    split
    · split <;> rfl
    · rfl

theorem tsaUpdate_nil (story : Story) : tsaUpdate story [] = story := by
  simp [tsaUpdate]

theorem tsaUpdate_comp (story : Story) (a1 a2 : List SlugEntry) :
    tsaUpdate (tsaUpdate story a1) a2 = tsaUpdate story (a1 ++ a2) := by
  rcases a1 with _ | ⟨e1, r1⟩
  · simp [tsaUpdate_nil]
  · rcases a2 with _ | ⟨e2, r2⟩
    · simp [tsaUpdate_nil]
    · simp [tsaUpdate]

theorem processLocale_spec (o : Oracle) (cfg : Config) (st : RunState)
    (story : Story) (l : String) :
    (∀ ev ∈ (processLocale o cfg st story l).events, eventIsPut ev = false) ∧
    (processLocale o cfg st story l).state.totalBilledCharacters =
      st.totalBilledCharacters + sumBilled (processLocale o cfg st story l).events ∧
    (∃ added : List SlugEntry, (∀ en ∈ added, en.lang = l) ∧
      (processLocale o cfg st story l).story = tsaUpdate story added) := by
  unfold processLocale
  cases hlp : story.localized_paths with
  | none =>
    exact ⟨by simp, by simp [sumBilled], ⟨[], by simp, (tsaUpdate_nil story).symm⟩⟩
  | some lps =>
    simp only []
    by_cases hskip :
        ((Option.map (fun item => item.published)
          (lps.find? (fun item => item.lang == l))).getD false && !cfg.overwrite) = true
    · rw [if_pos hskip]
      exact ⟨by simp, by simp [sumBilled], ⟨[], by simp, (tsaUpdate_nil story).symm⟩⟩
    · rw [if_neg hskip]
      rcases h1 : translateText o cfg.sourceLang st story.slug l with ⟨st1, ev1, res1⟩
      have hevt1 := translateText_event o cfg.sourceLang st story.slug l
      have hbil1 := translateText_billed o cfg.sourceLang st story.slug l
      rw [h1] at hevt1 hbil1
      simp only [] at hevt1 hbil1
      cases res1 with
      | error m =>
        simp only []
        refine ⟨?_, ?_, ⟨[], by simp, (tsaUpdate_nil story).symm⟩⟩
        · rintro ev hev
          rcases List.mem_singleton.mp hev with rfl
          rw [hevt1]; rfl
        · simp [sumBilled, hevt1, hbil1, eventBilled]
      | ok slugText =>
        simp only []
        rcases h2 : translateText o cfg.sourceLang st1 story.name l with ⟨st2, ev2, res2⟩
        have hevt2 := translateText_event o cfg.sourceLang st1 story.name l
        have hbil2 := translateText_billed o cfg.sourceLang st1 story.name l
        rw [h2] at hevt2 hbil2
        simp only [] at hevt2 hbil2
        cases res2 with
        | error m =>
          simp only []
          refine ⟨?_, ?_, ⟨[], by simp, (tsaUpdate_nil story).symm⟩⟩
          · rintro ev hev
            rcases List.mem_cons.mp hev with rfl | hev
            · rw [hevt1]; rfl
            · rcases List.mem_singleton.mp hev with rfl
              rw [hevt2]; rfl
          · simp only [sumBilled, hevt1, hevt2, hbil1, hbil2, eventBilled,
              List.map_cons, List.map_nil, List.sum_cons, List.sum_nil]
            omega
        | ok translatedName =>
          simp only []
          refine ⟨?_, ?_,
            ⟨[⟨l, slugify slugText, translatedName⟩], by simp, ?_⟩⟩
          · rintro ev hev
            rcases List.mem_cons.mp hev with rfl | hev
            · rw [hevt1]; rfl
            · rcases List.mem_singleton.mp hev with rfl
              rw [hevt2]; rfl
          · simp only [sumBilled, hevt1, hevt2, hbil1, hbil2, eventBilled,
              List.map_cons, List.map_nil, List.sum_cons, List.sum_nil]
            omega
          · simp [tsaUpdate, hlp]

theorem sumBilled_append (a b : List Event) :
    sumBilled (a ++ b) = sumBilled a + sumBilled b := by
  simp [sumBilled]

theorem processLocales_spec (o : Oracle) (cfg : Config) (locales : List String) :
    ∀ (st : RunState) (story : Story),
    (∀ ev ∈ (processLocales o cfg st story locales).events, eventIsPut ev = false) ∧
    (processLocales o cfg st story locales).state.totalBilledCharacters =
      st.totalBilledCharacters + sumBilled (processLocales o cfg st story locales).events ∧
    (∃ added : List SlugEntry, (∀ en ∈ added, en.lang ∈ locales) ∧
      (processLocales o cfg st story locales).story = tsaUpdate story added) := by
  induction locales with
  | nil =>
    intro st story
    exact ⟨by simp [processLocales], by simp [processLocales, sumBilled],
      ⟨[], by simp, by simp [processLocales, tsaUpdate_nil]⟩⟩
  | cons l ls ih =>
    intro st story
    unfold processLocales
    rcases h1 : processLocale o cfg st story l with ⟨st1, story1, evs1, err1⟩
    have hspec := processLocale_spec o cfg st story l
    rw [h1] at hspec
    simp only [] at hspec
    obtain ⟨hnp1, hbil1, added1, hlang1, hsto1⟩ := hspec
    cases err1 with
    | some m =>
      simp only []
      refine ⟨hnp1, hbil1, ⟨added1, ?_, hsto1⟩⟩
      intro en hen
      simp [hlang1 en hen]
    | none =>
      simp only []
      rcases h2 : processLocales o cfg st1 story1 ls with ⟨st2, story2, evs2, err2⟩
      have hih := ih st1 story1
      rw [h2] at hih
      simp only [] at hih
      obtain ⟨hnp2, hbil2, added2, hlang2, hsto2⟩ := hih
      refine ⟨?_, ?_, ⟨added1 ++ added2, ?_, ?_⟩⟩
      · intro ev hev
        rcases List.mem_append.mp hev with hev | hev
        · exact hnp1 ev hev
        · exact hnp2 ev hev
      · simp only []
        rw [sumBilled_append, hbil2, hbil1]
        omega
      · intro en hen
        rcases List.mem_append.mp hen with hen | hen
        · simp [hlang1 en hen]
        · simp [List.mem_cons]
          exact Or.inr (hlang2 en hen)
      · rw [hsto2, hsto1, tsaUpdate_comp]

theorem processStory_events (o : Oracle) (cfg : Config) (locales : List String)
    (st : RunState) (story : Story) :
    (processStory o cfg locales st story).state =
      (processLocales o cfg st story locales).state ∧
    (processStory o cfg locales st story).err =
      (processLocales o cfg st story locales).err ∧
    (processStory o cfg locales st story).events =
      (if (processLocales o cfg st story locales).err = none ∧ cfg.dryRun = false ∧
          (processLocales o cfg st story locales).story.translated_slugs_attributes ≠ none
       then (processLocales o cfg st story locales).events ++
          [Event.putStory (processLocales o cfg st story locales).story.id
            (processLocales o cfg st story locales).story cfg.publish]
       else (processLocales o cfg st story locales).events) := by
  unfold processStory
  rcases h : processLocales o cfg st story locales with ⟨st1, story1, evs1, err1⟩
  cases err1 with
  | some m => simp
  | none =>
    cases hts : story1.translated_slugs_attributes with
    | none => simp [hts]
    | some lst =>
      cases hdry : cfg.dryRun with
      | true => simp [hts, hdry]
      | false => simp [hts, hdry]

theorem processStory_billed (o : Oracle) (cfg : Config) (locales : List String)
    (st : RunState) (story : Story) :
    (processStory o cfg locales st story).state.totalBilledCharacters =
      st.totalBilledCharacters + sumBilled (processStory o cfg locales st story).events := by
  obtain ⟨hst, herr, hev⟩ := processStory_events o cfg locales st story
  have hloc := (processLocales_spec o cfg locales st story).2.1
  rw [hst, hev]
  split
  · rw [sumBilled_append]
    simpa [sumBilled, eventBilled] using hloc
  · exact hloc

theorem processStory_no_put_cases (o : Oracle) (cfg : Config) (locales : List String)
    (st : RunState) (story : Story)
    (h : (processStory o cfg locales st story).err ≠ none ∨ cfg.dryRun = true) :
    ∀ ev ∈ (processStory o cfg locales st story).events, eventIsPut ev = false := by
  obtain ⟨hst, herr, hev⟩ := processStory_events o cfg locales st story
  have hloc := (processLocales_spec o cfg locales st story).1
  rw [hev]
  have hcond : ¬((processLocales o cfg st story locales).err = none ∧ cfg.dryRun = false ∧
      (processLocales o cfg st story locales).story.translated_slugs_attributes ≠ none) := by
    rcases h with h | h
    · rw [herr] at h
      intro hc
      exact h hc.1
    · intro hc
      rw [h] at hc
      exact absurd hc.2.1 (by simp)
  rw [if_neg hcond]
  exact hloc

theorem processStories_billed (o : Oracle) (cfg : Config) (locales : List String) :
    ∀ (st : RunState) (stories : List Story),
    (processStories o cfg locales st stories).state.totalBilledCharacters =
      st.totalBilledCharacters + sumBilled (processStories o cfg locales st stories).events := by
  intro st stories
  induction stories generalizing st with
  | nil => simp [processStories, sumBilled]
  | cons s ss ih =>
    unfold processStories
    rcases h1 : processStory o cfg locales st s with ⟨st1, evs1, err1⟩
    have hb1 := processStory_billed o cfg locales st s
    rw [h1] at hb1
    simp only [] at hb1
    cases err1 with
    | some m => simpa using hb1
    | none =>
      simp only []
      rcases h2 : processStories o cfg locales st1 ss with ⟨st2, evs2, err2⟩
      have hb2 := ih st1
      rw [h2] at hb2
      simp only [] at hb2
      simp only []
      rw [sumBilled_append]
      omega

theorem processStories_no_put_of_dry (o : Oracle) (cfg : Config) (locales : List String)
    (hdry : cfg.dryRun = true) :
    ∀ (st : RunState) (stories : List Story),
    ∀ ev ∈ (processStories o cfg locales st stories).events, eventIsPut ev = false := by
  intro st stories
  induction stories generalizing st with
  | nil => simp [processStories]
  | cons s ss ih =>
    unfold processStories
    rcases h1 : processStory o cfg locales st s with ⟨st1, evs1, err1⟩
    have hnp1 := processStory_no_put_cases o cfg locales st s (Or.inr hdry)
    rw [h1] at hnp1
    simp only [] at hnp1
    cases err1 with
    | some m => simpa using hnp1
    | none =>
      simp only []
      intro ev hev
      rcases List.mem_append.mp hev with hev | hev
      · exact hnp1 ev hev
      · exact ih st1 ev hev

theorem processLocale_dry (o : Oracle) (cfg : Config) (b : Bool) (st : RunState)
    (story : Story) (l : String) :
    processLocale o { cfg with dryRun := b } st story l =
      processLocale o cfg st story l := rfl

theorem processLocales_dry (o : Oracle) (cfg : Config) (b : Bool)
    (locales : List String) :
    ∀ (st : RunState) (story : Story),
    processLocales o { cfg with dryRun := b } st story locales =
      processLocales o cfg st story locales := by
  induction locales with
  | nil => intro st story; rfl
  | cons l ls ih =>
    intro st story
    unfold processLocales
    rw [processLocale_dry]
    rcases h1 : processLocale o cfg st story l with ⟨st1, story1, evs1, err1⟩
    cases err1 with
    | some m => simp
    | none =>
      simp only []
      rw [ih]

theorem filter_non_put_eq_self (evs : List Event)
    (h : ∀ ev ∈ evs, eventIsPut ev = false) :
    evs.filter (fun e => !eventIsPut e) = evs := by
  apply List.filter_eq_self.mpr
  intro ev hev
  simp [h ev hev]

theorem filter_put_nil (evs : List Event)
    (h : ∀ ev ∈ evs, eventIsPut ev = false) :
    evs.filter eventIsPut = [] :=
  List.filter_eq_nil_iff.mpr fun ev hev => by simp [h ev hev]

theorem processStory_dry (o : Oracle) (cfg : Config) (locales : List String)
    (st : RunState) (story : Story) :
    (processStory o { cfg with dryRun := true } locales st story).state =
      (processStory o { cfg with dryRun := false } locales st story).state ∧
    (processStory o { cfg with dryRun := true } locales st story).err =
      (processStory o { cfg with dryRun := false } locales st story).err ∧
    (processStory o { cfg with dryRun := true } locales st story).events =
      (processStory o { cfg with dryRun := false } locales st story).events.filter
        (fun e => !eventIsPut e) := by
  obtain ⟨hstT, herrT, hevT⟩ :=
    processStory_events o { cfg with dryRun := true } locales st story
  obtain ⟨hstF, herrF, hevF⟩ :=
    processStory_events o { cfg with dryRun := false } locales st story
  rw [processLocales_dry] at hstT herrT hevT
  rw [processLocales_dry] at hstF herrF hevF
  simp only [] at hevT hevF
  have hnp := (processLocales_spec o cfg locales st story).1
  have hfilter := filter_non_put_eq_self _ hnp
  rw [if_neg (by simp)] at hevT
  refine ⟨by rw [hstT, hstF], by rw [herrT, herrF], ?_⟩
  rw [hevT, hevF]
  split
  · rw [List.filter_append, hfilter]
    simp [eventIsPut]
  · rw [hfilter]

theorem processStories_dry (o : Oracle) (cfg : Config) (locales : List String) :
    ∀ (st : RunState) (stories : List Story),
    (processStories o { cfg with dryRun := true } locales st stories).state =
      (processStories o { cfg with dryRun := false } locales st stories).state ∧
    (processStories o { cfg with dryRun := true } locales st stories).err =
      (processStories o { cfg with dryRun := false } locales st stories).err ∧
    (processStories o { cfg with dryRun := true } locales st stories).events =
      (processStories o { cfg with dryRun := false } locales st stories).events.filter
        (fun e => !eventIsPut e) := by
  intro st stories
  induction stories generalizing st with
  | nil => exact ⟨rfl, rfl, rfl⟩
  | cons s ss ih =>
    obtain ⟨h1s, h1e, h1v⟩ := processStory_dry o cfg locales st s
    unfold processStories
    simp only []
    rw [h1e, h1s]
    rcases hF : processStory o { cfg with dryRun := false } locales st s
      with ⟨stF, evsF, errF⟩
    rw [hF] at h1v
    simp only [] at h1v ⊢
    cases errF with
    | some m =>
      simp only []
      exact ⟨by first | rfl | trivial, by first | rfl | trivial, h1v⟩
    | none =>
      simp only []
      obtain ⟨h2s, h2e, h2v⟩ := ih stF
      rcases hR : processStories o { cfg with dryRun := false } locales stF ss
        with ⟨stR, evsR, errR⟩
      rw [hR] at h2s h2e h2v
      simp only [] at h2s h2e h2v
      refine ⟨h2s, h2e, ?_⟩
      rw [List.filter_append, h2v, h1v]

/-- Claim C8: a story from the space's story list is selected for
processing if and only if it is not a folder, its content type is in the
configured content-type list (defaulting to ["page"] when the
--content-types flag is not supplied, second conjunct), its full slug is
not in the skip-list, and — when the only-list is non-empty — its full
slug is in the only-list. -/
theorem story_selection (cfg : Config) (storyList : List Story) (s : Story)
    (a : Args) :
    (s ∈ selectStories cfg storyList ↔
      s ∈ storyList ∧ s.is_folder = false ∧ s.content_type ∈ cfg.contentTypes ∧
      s.full_slug ∉ cfg.skipStories ∧
      (cfg.onlyStories ≠ [] → s.full_slug ∈ cfg.onlyStories)) ∧
    resolveContentTypes { a with contentTypes := none } = ["page"] := by
  constructor
  · rw [selectStories, List.mem_filter]
    unfold storySelected
    cases honly : cfg.onlyStories with
    | nil => simp [and_assoc]
    | cons q qs => simp [and_assoc, honly]
  · simp [resolveContentTypes, truthy]

/-- Claim C8 witness: with an only-list containing exactly "about-us",
a space containing the stories "home" and "about-us" (both pages)
selects exactly "about-us". -/
theorem story_selection_witness :
    (⟨2, false, "page", "about-us", "about-us", "About Us", some [], none⟩ : Story) ∈
      selectStories ⟨none, ["page"], [], ["about-us"], false, false, false, false⟩
        [⟨1, false, "page", "home", "home", "Home", some [], none⟩,
          ⟨2, false, "page", "about-us", "about-us", "About Us", some [], none⟩] := by
  have h := (story_selection ⟨none, ["page"], [], ["about-us"], false, false, false, false⟩
    [⟨1, false, "page", "home", "home", "Home", some [], none⟩,
      ⟨2, false, "page", "about-us", "about-us", "About Us", some [], none⟩]
    ⟨2, false, "page", "about-us", "about-us", "About Us", some [], none⟩
    { }).1
  exact h.mpr (by refine ⟨by simp, rfl, by simp, by simp, fun h => by simp⟩)

/-- Claim C2 counterexample: for the token field, the flag can be
supplied (present in the parsed arguments) with an empty value; the
resolution then uses the environment variable's value instead of the
flag's, because the script resolves with JavaScript truthiness
(`args.token || process.env.STORYBLOK_OAUTH_TOKEN`). -/
theorem flag_env_counterexample :
    ({ token := some "" } : Args).token.isSome = true ∧
    resolveOauthToken { token := some "" }
      { storyblokOauthToken := some "secret-from-env" } =
      Except.ok (some "secret-from-env") ∧
    some "secret-from-env" ≠ ({ token := some "" } : Args).token := by
  refine ⟨rfl, rfl, by decide⟩

/-- Claim C2 amended: for every configuration field that has both a CLI
flag and an environment-variable counterpart (token, space, region,
deepl-api-key), whenever the flag is supplied with a truthy (non-empty)
value, its value is the one used, regardless of the environment
variable's value; the environment variable's value is used when the flag
is absent (and also, contrary to the original claim, when the flag's
value is falsy). -/
theorem flag_truthy_wins (a : Args) (e : Env) :
    (truthy a.token = true → resolveOauthToken a e = Except.ok a.token) ∧
    (a.token = none → truthy e.storyblokOauthToken = true →
      resolveOauthToken a e = Except.ok e.storyblokOauthToken) ∧
    (truthy a.space = true → resolveSpaceId a e = Except.ok a.space) ∧
    (a.space = none → truthy e.storyblokSpaceId = true →
      resolveSpaceId a e = Except.ok e.storyblokSpaceId) ∧
    (truthy a.deeplApiKey = true → resolveDeeplApiKey a e = Except.ok a.deeplApiKey) ∧
    (a.deeplApiKey = none → truthy e.deeplApiKey = true →
      resolveDeeplApiKey a e = Except.ok e.deeplApiKey) ∧
    (truthy a.region = true → resolveRegion a e = regionCheck a.region) ∧
    (a.region = none → truthy e.storyblokRegion = true →
      resolveRegion a e = regionCheck e.storyblokRegion) := by
  refine ⟨?_, ?_, ?_, ?_, ?_, ?_, ?_, ?_⟩
  · intro h
    have hsome : a.token.isSome = true := by
      cases ht : a.token <;> simp [ht, truthy] at h ⊢
    simp [resolveOauthToken, hsome, jsOr, h]
  · intro h1 h2
    simp only [resolveOauthToken, h1, h2, jsOr]
    simp [truthy]
  · intro h
    have hsome : a.space.isSome = true := by
      cases ht : a.space <;> simp [ht, truthy] at h ⊢
    simp [resolveSpaceId, hsome, jsOr, h]
  · intro h1 h2
    simp only [resolveSpaceId, h1, h2, jsOr]
    simp [truthy]
  · intro h
    have hsome : a.deeplApiKey.isSome = true := by
      cases ht : a.deeplApiKey <;> simp [ht, truthy] at h ⊢
    simp [resolveDeeplApiKey, hsome, jsOr, h]
  · intro h1 h2
    simp only [resolveDeeplApiKey, h1, h2, jsOr]
    simp [truthy]
  · intro h
    have hsome : a.region.isSome = true := by
      cases ht : a.region <;> simp [ht, truthy] at h ⊢
    simp only [resolveRegion, hsome, Bool.true_or, if_true, jsOr, h, if_pos]
    cases ht : a.region with
    | none => simp [ht] at hsome
    | some r => simp [regionCheck]
  · intro h1 h2
    rcases he : e.storyblokRegion with _ | r
    · rw [he] at h2
      simp [truthy] at h2
    · rw [he] at h2
      have hne : r.isEmpty = false := by
        simpa [truthy] using h2
      simp [resolveRegion, regionCheck, h1, he, jsOr, truthy, hne]

/-- Claim C2 witness for the amended statement: a truthy --token flag
wins over a set environment variable, and with the flag absent the
environment variable is used. -/
theorem flag_truthy_wins_witness :
    resolveOauthToken { token := some "cli-token" }
      { storyblokOauthToken := some "env-token" } = Except.ok (some "cli-token") ∧
    resolveOauthToken { }
      { storyblokOauthToken := some "env-token" } = Except.ok (some "env-token") :=
  ⟨(flag_truthy_wins { token := some "cli-token" }
      { storyblokOauthToken := some "env-token" }).1 (by decide),
    (flag_truthy_wins { }
      { storyblokOauthToken := some "env-token" }).2.1 rfl (by decide)⟩

theorem translateText_ok_text (o : Oracle) (sl : Option String) (st : RunState)
    (text tgt t : String)
    (h : (translateText o sl st text tgt).2.2 = Except.ok t) :
    t = (o text sl tgt).text := by
  unfold translateText at h
  cases sl with
  | some s =>
    simp only [] at h
    exact (Except.ok.inj h).symm
  | none =>
    simp only [] at h
    split at h
    · split at h
      · exact (Except.ok.inj h).symm
      · exact absurd h (by simp)
    · exact (Except.ok.inj h).symm

/-- Claim C5: for every story and locale in the resolved list, when the
story carries a `localized_paths` list: if an existing translation for
the locale is present, marked published, and the overwrite option is not
set, nothing is translated and nothing is appended (the locale result is
untouched); otherwise, when no fatal source-language mismatch occurs,
the slug and the name are each sent to the translation API and an entry
with this locale, the re-slugified translated slug, and the translated
name is appended to the story's translated-slugs list. -/
theorem skip_or_translate (o : Oracle) (cfg : Config) (st : RunState)
    (story : Story) (locale : String) (lps : List LocalizedPath)
    (hlp : story.localized_paths = some lps) :
    (skippedCombo cfg story locale = true →
      processLocale o cfg st story locale = ⟨st, story, [], none⟩) ∧
    (skippedCombo cfg story locale = false →
      (processLocale o cfg st story locale).err = none →
      (processLocale o cfg st story locale).events =
        [Event.translateCall story.slug locale
            ((o story.slug cfg.sourceLang locale).billedCharacters),
          Event.translateCall story.name locale
            ((o story.name cfg.sourceLang locale).billedCharacters)] ∧
      (processLocale o cfg st story locale).story.translated_slugs_attributes =
        some (story.translated_slugs_attributes.getD [] ++
          [⟨locale, slugify ((o story.slug cfg.sourceLang locale).text),
            (o story.name cfg.sourceLang locale).text⟩])) := by
  have hsc : skippedCombo cfg story locale =
      (((lps.find? (fun item => item.lang == locale)).map
        (fun item => item.published)).getD false && !cfg.overwrite) := by
    simp [skippedCombo, hlp]
  unfold processLocale
  rw [hlp]
  simp only []
  by_cases hskip :
      (((lps.find? (fun item => item.lang == locale)).map
        (fun item => item.published)).getD false && !cfg.overwrite) = true
  · rw [if_pos hskip]
    constructor
    · intro _
      rfl
    · intro hf
      rw [hsc, hskip] at hf
      exact absurd hf (by simp)
  · rw [if_neg hskip]
    constructor
    · intro hT
      rw [hsc] at hT
      exact absurd hT hskip
    · intro _
      rcases h1 : translateText o cfg.sourceLang st story.slug locale
        with ⟨st1, ev1, res1⟩
      have hevt1 := translateText_event o cfg.sourceLang st story.slug locale
      rw [h1] at hevt1
      simp only [] at hevt1
      cases res1 with
      | error m =>
        intro hf
        simp at hf
      | ok slugText =>
        have htxt1 : slugText = (o story.slug cfg.sourceLang locale).text :=
          translateText_ok_text o cfg.sourceLang st story.slug locale slugText
            (by rw [h1])
        simp only []
        rcases h2 : translateText o cfg.sourceLang st1 story.name locale
          with ⟨st2, ev2, res2⟩
        have hevt2 := translateText_event o cfg.sourceLang st1 story.name locale
        rw [h2] at hevt2
        simp only [] at hevt2
        cases res2 with
        | error m =>
          intro hf
          simp at hf
        | ok translatedName =>
          have htxt2 : translatedName = (o story.name cfg.sourceLang locale).text :=
            translateText_ok_text o cfg.sourceLang st1 story.name locale
              translatedName (by rw [h2])
          intro _
          simp only []
          constructor
          · rw [hevt1, hevt2]
          · rw [htxt1, htxt2]

/-- Claim C5 witness: a story with an existing published German
translation and no overwrite option is left untouched for locale "de". -/
theorem skip_or_translate_witness :
    processLocale oracleCX cfgCX initialRunState storyC5 "de" =
      ⟨initialRunState, storyC5, [], none⟩ :=
  (skip_or_translate oracleCX cfgCX initialRunState storyC5 "de" [⟨"de", true⟩]
    rfl).1 (by decide)

theorem sumBilled_fetch (selected : List Story) :
    sumBilled (Event.getStoryList ::
      selected.map (fun s => Event.getStory s.id)) = 0 := by
  simp only [sumBilled, List.map_cons, List.map_map, List.sum_cons]
  have h : (List.map (eventBilled ∘ fun s => Event.getStory s.id) selected) =
      List.map (fun _ => 0) selected := by
    apply List.map_congr_left
    intro s _
    rfl
  rw [h]
  simp [eventBilled]

/-- Claim C4: the billed-character total carried to the end of a run
equals the sum of the billed-character counts of every translation call
in the run's trace (the accumulation happens before the
source-language-mismatch check, so a call that triggers the abort is
included and the equality holds on fatal runs too); and the translation
API is never called for a locale/story combination that is skipped
because of an existing published translation without overwrite. -/
theorem billed_sum_and_skip (a : Args) (e : Env) (o : Oracle)
    (spaceLangs : List String) (storyList : List Story)
    (cfg : Config) (st : RunState) (story : Story) (locale : String) :
    ((runProgram a e o spaceLangs storyList).billedTotal =
      sumBilled (runProgram a e o spaceLangs storyList).events) ∧
    (skippedCombo cfg story locale = true →
      (processLocale o cfg st story locale).events = []) := by
  constructor
  · unfold runProgram
    cases hh : a.help with
    | true => simp [sumBilled]
    | false =>
      simp only [Bool.false_eq_true, if_false]
      rcases h1 : resolveOauthToken a e with m | tok
      · simp [sumBilled]
      rcases h2 : resolveSpaceId a e with m | sp
      · simp [sumBilled]
      rcases h3 : resolveRegion a e with m | rg
      · simp [sumBilled]
      rcases h4 : resolveDeeplApiKey a e with m | dk
      · simp [sumBilled]
      simp only []
      have hbil := processStories_billed o (buildConfig a)
        (if (if truthy a.locales then (a.locales.getD "").splitOn "," else []).isEmpty
         then spaceLangs
         else if truthy a.locales then (a.locales.getD "").splitOn "," else [])
        initialRunState (selectStories (buildConfig a) storyList)
      rcases hps : processStories o (buildConfig a)
        (if (if truthy a.locales then (a.locales.getD "").splitOn "," else []).isEmpty
         then spaceLangs
         else if truthy a.locales then (a.locales.getD "").splitOn "," else [])
        initialRunState (selectStories (buildConfig a) storyList)
        with ⟨stP, evsP, errP⟩
      rw [hps] at hbil
      simp only [initialRunState] at hbil
      cases errP with
      | some m =>
        simp only []
        rw [sumBilled_append, sumBilled_append, sumBilled_fetch]
        cases hloc : (if truthy a.locales then (a.locales.getD "").splitOn "," else []).isEmpty
          <;> simp [sumBilled, eventBilled, hloc] at hbil ⊢ <;> omega
      | none =>
        simp only []
        rw [sumBilled_append, sumBilled_append, sumBilled_fetch]
        cases hloc : (if truthy a.locales then (a.locales.getD "").splitOn "," else []).isEmpty
          <;> simp [sumBilled, eventBilled, hloc] at hbil ⊢ <;> omega
  · intro hsk
    have hlps : ∃ lps, story.localized_paths = some lps := by
      unfold skippedCombo at hsk
      cases hlp : story.localized_paths with
      | none => rw [hlp] at hsk; simp at hsk
      | some lps => exact ⟨lps, rfl⟩
    obtain ⟨lps, hlp⟩ := hlps
    have hcond : (((lps.find? (fun item => item.lang == locale)).map
        (fun item => item.published)).getD false && !cfg.overwrite) = true := by
      unfold skippedCombo at hsk
      rw [hlp] at hsk
      exact hsk
    unfold processLocale
    rw [hlp]
    simp only []
    rw [if_pos hcond]

/-- Claim C4 witness: instantiated on a one-story live run and on a
skipped locale/story combination. -/
theorem billed_sum_and_skip_witness :
    ((runProgram argsW envW oracleCX [] [storyCX1]).billedTotal =
      sumBilled (runProgram argsW envW oracleCX [] [storyCX1]).events) ∧
    (processLocale oracleCX cfgCX initialRunState storyC5 "de").events = [] :=
  ⟨(billed_sum_and_skip argsW envW oracleCX [] [storyCX1]
      cfgCX initialRunState storyC5 "de").1,
    (billed_sum_and_skip argsW envW oracleCX [] [storyCX1]
      cfgCX initialRunState storyC5 "de").2 (by decide)⟩

/-- Claim C3: for a story fetched without a `translated_slugs_attributes`
key, in a live (non-dry) run whose locale loop completes without a fatal
error, the write (PUT) step is performed if and only if at least one
translation entry was added to the story during this run (the story's
final translated-slugs list is non-empty); when none was added the story
is skipped. -/
theorem write_iff_entries_added (o : Oracle) (cfg : Config)
    (locales : List String) (st : RunState) (story : Story)
    (hdry : cfg.dryRun = false)
    (hinit : story.translated_slugs_attributes = none)
    (hok : (processLocales o cfg st story locales).err = none) :
    ((processStory o cfg locales st story).events.any eventIsPut = true ↔
      (processLocales o cfg st story
        locales).story.translated_slugs_attributes.getD [] ≠ []) := by
  obtain ⟨hst, herr, hev⟩ := processStory_events o cfg locales st story
  have hnp := (processLocales_spec o cfg locales st story).1
  obtain ⟨added, hlang, hsto⟩ := (processLocales_spec o cfg locales st story).2.2
  rw [hev]
  cases hts : (processLocales o cfg st story
      locales).story.translated_slugs_attributes with
  | none =>
    rw [if_neg (by simp [hts])]
    refine iff_of_false ?_ (by simp [hts])
    intro hany
    rcases List.any_eq_true.mp hany with ⟨ev, hmem, hput⟩
    rw [hnp ev hmem] at hput
    exact absurd hput (by simp)
  | some lst =>
    rw [if_pos ⟨hok, hdry, by simp [hts]⟩]
    refine iff_of_true (by simp [eventIsPut]) ?_
    rw [hsto] at hts
    unfold tsaUpdate at hts
    split at hts
    · rename_i hadd
      rw [hinit] at hts
      exact absurd hts (by simp)
    · rename_i hadd
      rw [hinit] at hts
      simp only [Option.getD_none, List.nil_append] at hts
      obtain rfl : added = lst := Option.some.inj hts
      simp only [Option.getD_some]
      intro h0
      rw [h0] at hadd
      exact hadd (by simp)

/-- Claim C3 witness: a story whose single locale is skipped gets no
translation entry and no write. -/
theorem write_iff_entries_added_witness :
    ((processStory oracleCX cfgCX ["de"] initialRunState storyC5).events.any
        eventIsPut = true ↔
      (processLocales oracleCX cfgCX initialRunState storyC5
        ["de"]).story.translated_slugs_attributes.getD [] ≠ []) :=
  write_iff_entries_added oracleCX cfgCX ["de"] initialRunState storyC5
    rfl rfl (by decide)

/-- Claim C10: every write (PUT) event issued while processing a story
carries the story's own id, the configured publish flag, and a story
record equal to the fetched one except for the
`translated_slugs_attributes` field, which extends the previous list
(created only if absent) with the entries appended during this run, each
for a locale of the resolved list; every other field is unchanged. -/
theorem put_payload_frame (o : Oracle) (cfg : Config) (locales : List String)
    (st : RunState) (story : Story) (i : Nat) (stw : Story) (pb : Bool)
    (hput : Event.putStory i stw pb ∈ (processStory o cfg locales st story).events) :
    i = stw.id ∧ pb = cfg.publish ∧
    ∃ added : List SlugEntry, (∀ en ∈ added, en.lang ∈ locales) ∧
      stw = tsaUpdate story added := by
  obtain ⟨hst, herr, hev⟩ := processStory_events o cfg locales st story
  have hnp := (processLocales_spec o cfg locales st story).1
  obtain ⟨added, hlang, hsto⟩ := (processLocales_spec o cfg locales st story).2.2
  rw [hev] at hput
  split at hput
  · rcases List.mem_append.mp hput with hmem | hmem
    · exact absurd (hnp _ hmem) (by simp [eventIsPut])
    · have heq := List.mem_singleton.mp hmem
      injection heq with h1 h2 h3
      subst h2
      exact ⟨h1, h3, added, hlang, hsto⟩
  · exact absurd (hnp _ hput) (by simp [eventIsPut])

/-- Claim C10 witness: the PUT payload for `storyCX1` is the fetched
story extended with exactly the one entry added for locale "de". -/
theorem put_payload_frame_witness :
    1 = storyCX1w.id ∧ false = cfgCX.publish ∧
    ∃ added : List SlugEntry, (∀ en ∈ added, en.lang ∈ ["de"]) ∧
      storyCX1w = tsaUpdate storyCX1 added :=
  put_payload_frame oracleCX cfgCX ["de"] initialRunState storyCX1 1 storyCX1w
    false (by decide)

/-- Claim C1 counterexample: with auto-detected source language, a run
over two stories translates and WRITES the first story (all its calls
detect "en"), then aborts with the source-language-mismatch fatal error
while translating the second story (detected "fr"): the run aborts with
a PUT already issued, so the abort does not precede every write of the
run. -/
theorem mismatch_abort_counterexample :
    (processStories oracleCX cfgCX ["de"] initialRunState
      [storyCX1, storyCX2]).err = some (mismatchMsg "fr" "en") ∧
    (processStories oracleCX cfgCX ["de"] initialRunState
      [storyCX1, storyCX2]).events.any eventIsPut = true := by
  constructor <;> (set_option maxRecDepth 4096 in decide)

/-- Claim C1 amended: when no explicit source locale is configured and a
translation call reports a source language different from the one
detected earlier in the run, the run aborts (exit code 1) before the
write of the story currently being processed — no PUT for that story and
none after it, since the run terminates; writes already issued for
earlier, fully processed stories in the same run are not prevented (see
the counterexample). Formally: a story whose processing ends fatally
contributes no PUT event. -/
theorem abort_before_current_write (o : Oracle) (cfg : Config)
    (locales : List String) (st : RunState) (story : Story)
    (hfatal : (processStory o cfg locales st story).err ≠ none) :
    ∀ ev ∈ (processStory o cfg locales st story).events, eventIsPut ev = false :=
  processStory_no_put_cases o cfg locales st story (Or.inl hfatal)

/-- Claim C1 amended-statement witness: the story that triggers the
mismatch (processed from a state that already detected "en") produces
only translate events, no PUT. -/
theorem abort_before_current_write_witness :
    (processStory oracleCX cfgCX ["de"] ⟨some "en", 0⟩ storyCX2).events.filter
      eventIsPut = [] :=
  filter_put_nil _
    (abort_before_current_write oracleCX cfgCX ["de"] ⟨some "en", 0⟩ storyCX2
      (by decide))

theorem resolveOauthToken_missing (a : Args) (e : Env)
    (h1 : a.token = none) (h2 : truthy e.storyblokOauthToken = false) :
    resolveOauthToken a e = Except.error tokenMsg := by
  simp [resolveOauthToken, h1, h2]

theorem resolveSpaceId_missing (a : Args) (e : Env)
    (h1 : a.space = none) (h2 : truthy e.storyblokSpaceId = false) :
    resolveSpaceId a e = Except.error spaceMsg := by
  simp [resolveSpaceId, h1, h2]

theorem resolveDeeplApiKey_missing (a : Args) (e : Env)
    (h1 : a.deeplApiKey = none) (h2 : truthy e.deeplApiKey = false) :
    resolveDeeplApiKey a e = Except.error deeplMsg := by
  simp [resolveDeeplApiKey, h1, h2]

theorem resolveOauthToken_present (a : Args) (e : Env)
    (h : ¬(a.token = none ∧ truthy e.storyblokOauthToken = false)) :
    ∃ v, resolveOauthToken a e = Except.ok v := by
  rcases not_and_or.mp h with h | h
  · have hsome : a.token.isSome = true := by
      cases ht : a.token
      · exact absurd ht h
      · rfl
    exact ⟨jsOr a.token e.storyblokOauthToken, by simp [resolveOauthToken, hsome]⟩
  · have htr : truthy e.storyblokOauthToken = true := by
      cases ht : truthy e.storyblokOauthToken
      · exact absurd ht h
      · rfl
    exact ⟨jsOr a.token e.storyblokOauthToken, by simp [resolveOauthToken, htr]⟩

theorem resolveSpaceId_present (a : Args) (e : Env)
    (h : ¬(a.space = none ∧ truthy e.storyblokSpaceId = false)) :
    ∃ v, resolveSpaceId a e = Except.ok v := by
  rcases not_and_or.mp h with h | h
  · have hsome : a.space.isSome = true := by
      cases ht : a.space
      · exact absurd ht h
      · rfl
    exact ⟨jsOr a.space e.storyblokSpaceId, by simp [resolveSpaceId, hsome]⟩
  · have htr : truthy e.storyblokSpaceId = true := by
      cases ht : truthy e.storyblokSpaceId
      · exact absurd ht h
      · rfl
    exact ⟨jsOr a.space e.storyblokSpaceId, by simp [resolveSpaceId, htr]⟩

/-- Claim C7: when the run is not a help invocation (and the region
setting itself is not erroneous), if any of the three required
credentials (OAuth token, space id, DeepL API key) is supplied neither as
its CLI flag nor as a truthy environment variable, the process exits with
code 1, with a message naming the (first such) missing field, and with an
empty trace: no network call of any kind has been made. -/
theorem missing_credential_fatal (a : Args) (e : Env) (o : Oracle)
    (spaceLangs : List String) (storyList : List Story)
    (hhelp : a.help = false)
    (hregion : ∀ m, resolveRegion a e ≠ Except.error m)
    (hmiss : (a.token = none ∧ truthy e.storyblokOauthToken = false) ∨
             (a.space = none ∧ truthy e.storyblokSpaceId = false) ∨
             (a.deeplApiKey = none ∧ truthy e.deeplApiKey = false)) :
    (runProgram a e o spaceLangs storyList).exitCode = 1 ∧
    (runProgram a e o spaceLangs storyList).events = [] ∧
    ((a.token = none ∧ truthy e.storyblokOauthToken = false ∧
        (runProgram a e o spaceLangs storyList).errMsg = some tokenMsg) ∨
      (a.space = none ∧ truthy e.storyblokSpaceId = false ∧
        (runProgram a e o spaceLangs storyList).errMsg = some spaceMsg) ∨
      (a.deeplApiKey = none ∧ truthy e.deeplApiKey = false ∧
        (runProgram a e o spaceLangs storyList).errMsg = some deeplMsg)) := by
  unfold runProgram
  rw [hhelp]
  simp only [Bool.false_eq_true, if_false]
  by_cases ht : a.token = none ∧ truthy e.storyblokOauthToken = false
  · rw [resolveOauthToken_missing a e ht.1 ht.2]
    exact ⟨rfl, rfl, Or.inl ⟨ht.1, ht.2, rfl⟩⟩
  · obtain ⟨v1, hv1⟩ := resolveOauthToken_present a e ht
    rw [hv1]
    simp only []
    by_cases hs : a.space = none ∧ truthy e.storyblokSpaceId = false
    · rw [resolveSpaceId_missing a e hs.1 hs.2]
      exact ⟨rfl, rfl, Or.inr (Or.inl ⟨hs.1, hs.2, rfl⟩)⟩
    · obtain ⟨v2, hv2⟩ := resolveSpaceId_present a e hs
      rw [hv2]
      simp only []
      rcases hr : resolveRegion a e with m | rg
      · exact absurd hr (hregion m)
      · simp only []
        rcases hmiss with hm | hm | hm
        · exact absurd hm ht
        · exact absurd hm hs
        · rw [resolveDeeplApiKey_missing a e hm.1 hm.2]
          exact ⟨rfl, rfl, Or.inr (Or.inr ⟨hm.1, hm.2, rfl⟩)⟩

/-- Claim C7 witness: with only the token missing, the run exits with
code 1, an empty trace and the token-naming message. -/
theorem missing_credential_fatal_witness :
    (runProgram { space := some "12345", deeplApiKey := some "k" } envW oracleCX
      [] [storyCX1]).exitCode = 1 ∧
    (runProgram { space := some "12345", deeplApiKey := some "k" } envW oracleCX
      [] [storyCX1]).events = [] ∧
    ((({ space := some "12345", deeplApiKey := some "k" } : Args).token = none ∧
        truthy envW.storyblokOauthToken = false ∧
        (runProgram { space := some "12345", deeplApiKey := some "k" } envW
          oracleCX [] [storyCX1]).errMsg = some tokenMsg) ∨
      (({ space := some "12345", deeplApiKey := some "k" } : Args).space = none ∧
        truthy envW.storyblokSpaceId = false ∧
        (runProgram { space := some "12345", deeplApiKey := some "k" } envW
          oracleCX [] [storyCX1]).errMsg = some spaceMsg) ∨
      (({ space := some "12345", deeplApiKey := some "k" } : Args).deeplApiKey =
          none ∧
        truthy envW.deeplApiKey = false ∧
        (runProgram { space := some "12345", deeplApiKey := some "k" } envW
          oracleCX [] [storyCX1]).errMsg = some deeplMsg)) :=
  missing_credential_fatal { space := some "12345", deeplApiKey := some "k" }
    envW oracleCX [] [storyCX1] rfl
    (by intro m h; simp [resolveRegion, truthy, envW] at h) (Or.inl (by decide))

theorem resolveOauthToken_dry (a : Args) (e : Env) (b : Bool) :
    resolveOauthToken { a with dryRun := b } e = resolveOauthToken a e := rfl

theorem resolveSpaceId_dry (a : Args) (e : Env) (b : Bool) :
    resolveSpaceId { a with dryRun := b } e = resolveSpaceId a e := rfl

theorem resolveRegion_dry (a : Args) (e : Env) (b : Bool) :
    resolveRegion { a with dryRun := b } e = resolveRegion a e := rfl

theorem resolveDeeplApiKey_dry (a : Args) (e : Env) (b : Bool) :
    resolveDeeplApiKey { a with dryRun := b } e = resolveDeeplApiKey a e := rfl

theorem buildConfig_dry (a : Args) (b : Bool) :
    buildConfig { a with dryRun := b } = { buildConfig a with dryRun := b } := rfl

theorem selectStories_dry (cfg : Config) (b : Bool) (storyList : List Story) :
    selectStories { cfg with dryRun := b } storyList =
      selectStories cfg storyList := rfl


theorem space_events_no_put (c : Prop) [Decidable c] :
    ∀ ev ∈ (if c then [Event.getSpace] else []), eventIsPut ev = false := by
  intro ev hev
  split at hev
  · rcases List.mem_singleton.mp hev with rfl
    rfl
  · simp at hev

theorem fetch_events_no_put (selected : List Story) :
    ∀ ev ∈ Event.getStoryList :: selected.map (fun s => Event.getStory s.id),
      eventIsPut ev = false := by
  intro ev hev
  rcases List.mem_cons.mp hev with rfl | hev
  · rfl
  · rcases List.mem_map.mp hev with ⟨s, _, rfl⟩
    rfl

/-- Claim C6: with the dry-run flag set, no story write (PUT) event ever
appears in the run's trace, for any number of stories and locales; the
run still performs exactly the translations (and all other calls) of the
corresponding live run — its trace is the live trace with the PUT events
removed — and it reaches the same exit code (in particular the success
exit whenever the live run succeeds) with the same billed total. -/
theorem dry_run_never_writes (a : Args) (e : Env) (o : Oracle)
    (spaceLangs : List String) (storyList : List Story) :
    ((runProgram { a with dryRun := true } e o spaceLangs storyList).events.filter
        eventIsPut = []) ∧
    ((runProgram { a with dryRun := true } e o spaceLangs storyList).events =
      (runProgram { a with dryRun := false } e o spaceLangs
        storyList).events.filter (fun ev => !eventIsPut ev)) ∧
    ((runProgram { a with dryRun := true } e o spaceLangs storyList).exitCode =
      (runProgram { a with dryRun := false } e o spaceLangs
        storyList).exitCode) ∧
    ((runProgram { a with dryRun := true } e o spaceLangs storyList).billedTotal =
      (runProgram { a with dryRun := false } e o spaceLangs
        storyList).billedTotal) := by
  unfold runProgram
  simp only [resolveOauthToken_dry, resolveSpaceId_dry, resolveRegion_dry,
    resolveDeeplApiKey_dry, buildConfig_dry, selectStories_dry]
  cases hh : a.help with
  | true => exact ⟨rfl, rfl, rfl, rfl⟩
  | false =>
    simp only [Bool.false_eq_true, if_false]
    rcases h1 : resolveOauthToken a e with m | v1
    · exact ⟨rfl, rfl, rfl, rfl⟩
    rcases h2 : resolveSpaceId a e with m | v2
    · exact ⟨rfl, rfl, rfl, rfl⟩
    rcases h3 : resolveRegion a e with m | v3
    · exact ⟨rfl, rfl, rfl, rfl⟩
    rcases h4 : resolveDeeplApiKey a e with m | v4
    · exact ⟨rfl, rfl, rfl, rfl⟩
    simp only []
    obtain ⟨hS, hE, hV⟩ := processStories_dry o (buildConfig a)
      (if (if truthy a.locales then (a.locales.getD "").splitOn "," else []).isEmpty
       then spaceLangs
       else if truthy a.locales then (a.locales.getD "").splitOn "," else [])
      initialRunState (selectStories (buildConfig a) storyList)
    rcases hT : processStories o { buildConfig a with dryRun := true }
      (if (if truthy a.locales then (a.locales.getD "").splitOn "," else []).isEmpty
       then spaceLangs
       else if truthy a.locales then (a.locales.getD "").splitOn "," else [])
      initialRunState (selectStories (buildConfig a) storyList)
      with ⟨stT, evsT, errT⟩
    rcases hF : processStories o { buildConfig a with dryRun := false }
      (if (if truthy a.locales then (a.locales.getD "").splitOn "," else []).isEmpty
       then spaceLangs
       else if truthy a.locales then (a.locales.getD "").splitOn "," else [])
      initialRunState (selectStories (buildConfig a) storyList)
      with ⟨stF, evsF, errF⟩
    rw [hT, hF] at hS hE hV
    simp only [] at hS hE hV
    subst hS
    subst hE
    have hTno : ∀ ev ∈ evsT, eventIsPut ev = false := by
      intro ev hev
      rw [hV] at hev
      have := (List.mem_filter.mp hev).2
      simp at this
      simp [this]
    have hSE := space_events_no_put
      ((if truthy a.locales then (a.locales.getD "").splitOn "," else []).isEmpty
        = true)
    have hFE := fetch_events_no_put (selectStories (buildConfig a) storyList)
    cases errT with
    | some m =>
      simp only []
      refine ⟨?_, ?_, by first | rfl | trivial, by first | rfl | trivial⟩
      · rw [List.filter_append, List.filter_append]
        rw [filter_put_nil _ hSE, filter_put_nil _ hFE, filter_put_nil _ hTno]
        simp
      · rw [List.filter_append, List.filter_append]
        rw [filter_non_put_eq_self _ hSE, filter_non_put_eq_self _ hFE, hV]
    | none =>
      simp only []
      refine ⟨?_, ?_, by first | rfl | trivial, by first | rfl | trivial⟩
      · rw [List.filter_append, List.filter_append]
        rw [filter_put_nil _ hSE, filter_put_nil _ hFE, filter_put_nil _ hTno]
        simp
      · rw [List.filter_append, List.filter_append]
        rw [filter_non_put_eq_self _ hSE, filter_non_put_eq_self _ hFE, hV]
